import Mathlib

/-!
# Verification of the MTProto session layer (`mtproto/session.h`)

Shallow embedding of the session-reliability core of `src/Telegram/SourceFiles/mtproto/session.h`:
the bounded window of received message ids (`ReceivedMsgIds`), the frame inspection helper
(`ResponseNeedsAck`), the shared session record (`SessionData`), and the session controller's
kill semantics (`Session`).

Modelling conventions:
* `mtpMsgId` (`uint64`) and other machine integers become `Nat`; where C++ wraps (the `uint32`
  counter `_messagesSent` and the `uint32` sequence-number arithmetic) the embedding reduces
  modulo `2 ^ 32` explicitly.
* `QMap<mtpMsgId, bool>` is a key-sorted association list `List (Nat × Bool)`; well-formedness
  (`ReceivedMsgIds.Wf`) is strict ascending order of the keys, which is the `QMap` invariant.
* `AuthKeyPtr` is opaque to this layer (only compared for identity), modelled as `Nat`
  (`0` plays the role of the null pointer).
* Request/response payloads are opaque to the properties below and are modelled as `Nat` /
  `List Nat`.
-/

namespace MTPSession

/-- `mtpMsgId`: 64-bit message identifier. -/
abbrev mtpMsgId := Nat

/-- Modelled from the spec: the fixed capacity constant `MTPIdsBufferSize` referenced by
`ReceivedMsgIds` is defined outside this excerpt; the spec calls it the window's
"configured minimum capacity" / fixed capacity (400 in the full repository). -/
def MTPIdsBufferSize : Nat := 400

/-- Ordered insert into a key-sorted association list, the effect of `QMap::insert`:
the entry is placed at its key position, replacing an existing entry with the same key. -/
def qmapInsert (k : mtpMsgId) (v : Bool) : List (mtpMsgId × Bool) → List (mtpMsgId × Bool)
  | [] => [(k, v)]
  | p :: t =>
    if k < p.1 then (k, v) :: p :: t
    else if k = p.1 then (k, v) :: t
    else p :: qmapInsert k v t

/-- `ReceivedMsgIds`: bounded tracker of recently seen incoming message ids with their
ack-needed flag; `_idsNeedAck` is the `QMap<mtpMsgId, bool>`. -/
structure ReceivedMsgIds where
  idsNeedAck : List (mtpMsgId × Bool)
  deriving DecidableEq

namespace ReceivedMsgIds

/-- The `QMap` invariant: entries sorted by strictly increasing key. -/
def Wf (w : ReceivedMsgIds) : Prop :=
  w.idsNeedAck.Pairwise (fun a b => a.1 < b.1)

instance (w : ReceivedMsgIds) : Decidable w.Wf := by
  unfold Wf; infer_instance

/-- `ReceivedMsgIds::min`: the first (smallest) key, `0` when the map is empty. -/
def min (w : ReceivedMsgIds) : mtpMsgId :=
  match w.idsNeedAck with
  | [] => 0
  | p :: _ => p.1

/-- `ReceivedMsgIds::max`: the last (largest) key, `0` when the map is empty. -/
def max (w : ReceivedMsgIds) : mtpMsgId :=
  (w.idsNeedAck.getLast?.map Prod.fst).getD 0

/-- `ReceivedMsgIds::registerMsgId`: if the id is absent and (window below capacity or the id
exceeds the current minimum), insert it with its ack flag and return `true`; otherwise return
`false` with the window untouched. -/
def registerMsgId (msgId : mtpMsgId) (needAck : Bool) (w : ReceivedMsgIds) :
    Bool × ReceivedMsgIds :=
  match w.idsNeedAck.lookup msgId with
  | some _ => (false, w)
  | none =>
    if w.idsNeedAck.length < MTPIdsBufferSize ∨ w.min < msgId then
      (true, ⟨qmapInsert msgId needAck w.idsNeedAck⟩)
    else
      (false, w)

/-- `ReceivedMsgIds::shrink`: capture the size once, then erase the first (smallest) entry
while the captured size exceeds `MTPIdsBufferSize`; i.e. drop `size - capacity` entries
from the front. -/
def shrink (w : ReceivedMsgIds) : ReceivedMsgIds :=
  ⟨w.idsNeedAck.drop (w.idsNeedAck.length - MTPIdsBufferSize)⟩

/-- `ReceivedMsgIds::State`. -/
inductive State where
  | NotFound
  | NeedsAck
  | NoAckNeeded
  deriving DecidableEq

/-- `ReceivedMsgIds::lookup`: classify a message id by presence and stored ack flag. -/
def lookup (msgId : mtpMsgId) (w : ReceivedMsgIds) : State :=
  match w.idsNeedAck.lookup msgId with
  | none => State.NotFound
  | some true => State.NeedsAck
  | some false => State.NoAckNeeded

/-- `ReceivedMsgIds::clear`. -/
def clear (_w : ReceivedMsgIds) : ReceivedMsgIds := ⟨[]⟩

end ReceivedMsgIds

/-- `SerializedMessage` (`mtpBuffer`, a `QVector<mtpPrime>` of 32-bit words); each element is a
32-bit word value. -/
abbrev SerializedMessage := List Nat

/-- `ResponseNeedsAck`: a response shorter than 8 words needs no ack; otherwise read the 32-bit
word at element 6 (the sequence number) and test its least-significant bit. -/
def ResponseNeedsAck (response : SerializedMessage) : Bool :=
  if response.length < 8 then
    false
  else
    let seqNo := response.getD 6 0
    seqNo &&& 0x01 != 0

/-- `SessionData`: session identity (`_session`, `_salt`, `_messagesSent`, `_authKey`,
`_keyChecked`, `_layerInited`) together with the per-session queues. Payload types
(`mtpRequest`, request ids, serialized messages) are opaque to the verified properties and
modelled as `Nat` / `List Nat`. The owner pointer and the locks have no effect on the
sequential semantics and are not represented. -/
structure SessionData where
  session : Nat
  salt : Nat
  messagesSent : Nat
  authKey : Nat
  keyChecked : Bool
  layerInited : Bool
  toSend : List (Nat × Nat)
  haveSent : List (Nat × Nat)
  toResend : List (Nat × Nat)
  receivedIds : ReceivedMsgIds
  wereAcked : List (Nat × Nat)
  stateRequest : List Nat
  receivedResponses : List (Nat × SerializedMessage)
  receivedUpdates : List SerializedMessage
  deriving DecidableEq

namespace SessionData

/-- `SessionData::setSession`: if the stored session id differs, overwrite it and reset
`_messagesSent` to `0`; otherwise do nothing. -/
def setSession (session : Nat) (s : SessionData) : SessionData :=
  if s.session ≠ session then
    { s with session := session, messagesSent := 0 }
  else
    s

/-- `SessionData::setSalt`. -/
def setSalt (salt : Nat) (s : SessionData) : SessionData :=
  { s with salt := salt }

/-- `SessionData::setKey`: when the key differs, draw a random session id (passed here as the
explicit argument `randSession`, the value produced by `rand_value<uint64>()`), store the key,
then — only if that random id differs from the stored session id — replace the session id and
reset `_messagesSent`; finally clear `_layerInited`. Same key: no-op. -/
def setKey (key : Nat) (randSession : Nat) (s : SessionData) : SessionData :=
  if s.authKey ≠ key then
    let session := randSession
    let s1 := { s with authKey := key }
    let s2 :=
      if s1.session ≠ session then
        { s1 with session := session, messagesSent := 0 }
      else
        s1
    { s2 with layerInited := false }
  else
    s

/-- `SessionData::setLayerWasInited`. -/
def setLayerWasInited (was : Bool) (s : SessionData) : SessionData :=
  { s with layerInited := was }

/-- `SessionData::setCheckedKey`. -/
def setCheckedKey (checked : Bool) (s : SessionData) : SessionData :=
  { s with keyChecked := checked }

/-- `SessionData::nextRequestSeqNumber`: read the `uint32` counter, advance it by one exactly
when `needAck` (wrapping mod `2 ^ 32`), and return `counter * 2 + (needAck ? 1 : 0)` in
`uint32` arithmetic. -/
def nextRequestSeqNumber (needAck : Bool) (s : SessionData) : Nat × SessionData :=
  let result := s.messagesSent
  ((result * 2 + (if needAck then 1 else 0)) % 2 ^ 32,
    { s with messagesSent := (s.messagesSent + (if needAck then 1 else 0)) % 2 ^ 32 })

/-- Repeated ack-needing calls: the state after `k` sequential
`nextRequestSeqNumber true` calls. -/
def iterateSeqCalls (s : SessionData) : Nat → SessionData
  | 0 => s
  | k + 1 => (nextRequestSeqNumber true (iterateSeqCalls s k)).2

end SessionData

/-- `Session`: the controller. Only the killed flag and the shared data block matter for the
verified property. -/
structure Session where
  killed : Bool
  data : SessionData
  deriving DecidableEq

namespace Session

/-- Modelled from the spec: `Session::kill` (body in `session.cpp`, outside this excerpt)
"sets an irreversible flag"; after it, "every public operation is a no-op or returns a
killed error; no callback fires again". -/
def kill (s : Session) : Session :=
  { s with killed := true }

/-- Modelled from the spec: `Session::sendPrepared` (enqueue; body outside this excerpt)
checks the killed flag at the start of the operation, then stores the request in `toSend`.
The second component lists the callbacks/signals fired by the call. -/
def sendPrepared (requestId : Nat) (request : Nat) (s : Session) : Session × List Nat :=
  if s.killed then
    (s, [])
  else
    ({ s with data := { s.data with toSend := (requestId, request) :: s.data.toSend } }, [])

/-- Modelled from the spec: `Session::resend` (body outside this excerpt) checks the killed
flag first; otherwise it moves the `haveSent` entry for `msgId` into the resend path and
signals `needToSend` (callback id `0` in the fired-callback list). -/
def resend (msgId : Nat) (s : Session) : Session × List Nat :=
  if s.killed then
    (s, [])
  else
    match s.data.haveSent.lookup msgId with
    | none => (s, [])
    | some requestId =>
      ({ s with data := { s.data with
          haveSent := s.data.haveSent.filter (fun p => p.1 != msgId),
          toResend := (msgId, requestId) :: s.data.toResend } }, [0])

/-- Modelled from the spec: `Session::checkRequestsByTimer` (the periodic sweep; body outside
this excerpt) checks the killed flag first; otherwise it shrinks the received-ids window
(and schedules resend work for timed-out entries). -/
def checkRequestsByTimer (s : Session) : Session × List Nat :=
  if s.killed then
    (s, [])
  else
    ({ s with data := { s.data with receivedIds := s.data.receivedIds.shrink } }, [])

end Session

/-- A concrete session record used to instantiate hypotheses of the theorems below. -/
def sampleData : SessionData :=
  { session := 5, salt := 7, messagesSent := 9, authKey := 1, keyChecked := false,
    layerInited := true, toSend := [(1, 2)], haveSent := [(10, 1)], toResend := [],
    receivedIds := ⟨[(3, true)]⟩, wereAcked := [], stateRequest := [],
    receivedResponses := [], receivedUpdates := [] }

/-! ## Helper lemmas -/

/-- `List.lookup` finds the freshly inserted entry of a `qmapInsert`. -/
theorem lookup_qmapInsert_self (k : Nat) (v : Bool) (l : List (Nat × Bool)) :
    (qmapInsert k v l).lookup k = some v := by
  induction l with
  | nil => simp [qmapInsert, List.lookup]
  | cons p t ih =>
    by_cases h1 : k < p.1
    · simp [qmapInsert, h1, List.lookup]
    · by_cases h2 : k = p.1
      · simp [qmapInsert, h1, h2, List.lookup]
      · have hne : (k == p.1) = false := by simp [h2]
        simp [qmapInsert, h1, h2, List.lookup, hne, ih]

/-- `qmapInsert` does not disturb the lookup of any other key. -/
theorem lookup_qmapInsert_ne (k : Nat) (v : Bool) (l : List (Nat × Bool)) (m : Nat)
    (h : m ≠ k) : (qmapInsert k v l).lookup m = l.lookup m := by
  have hmk : (m == k) = false := by simp [h]
  induction l with
  | nil => simp [qmapInsert, List.lookup, hmk]
  | cons p t ih =>
    by_cases h1 : k < p.1
    · simp [qmapInsert, h1, List.lookup, hmk]
    · by_cases h2 : k = p.1
      · subst h2
        simp [qmapInsert, h1, List.lookup, hmk]
      · simp [qmapInsert, h1, h2, List.lookup, ih]

/-- In a strictly key-sorted list, an element survives dropping all but the last `c`
entries exactly when fewer than `c` entries have a strictly larger key, i.e. exactly
when it is among the `c` largest. -/
theorem mem_drop_sorted_iff (c : Nat) (p : Nat × Bool) :
    ∀ l : List (Nat × Bool), l.Pairwise (fun a b => a.1 < b.1) → p ∈ l →
      (p ∈ l.drop (l.length - c) ↔ (l.filter (fun q => p.1 < q.1)).length < c) := by
  intro l
  induction l with
  | nil => intro _ hp; simp at hp
  | cons x t ih =>
    intro hl hp
    rcases List.pairwise_cons.1 hl with ⟨hx, ht⟩
    rcases List.mem_cons.1 hp with rfl | hpt
    · have hfilter : t.filter (fun q => p.1 < q.1) = t :=
        List.filter_eq_self.2 (fun q hq => by simpa using hx q hq)
      rw [List.filter_cons]
      simp only [lt_irrefl, decide_False, Bool.false_eq_true, if_false, hfilter]
      constructor
      · intro hmem
        by_contra hc
        have hlen : (p :: t).length - c = (t.length - c) + 1 := by simp; omega
        rw [hlen, List.drop_succ_cons] at hmem
        have : p ∈ t := List.drop_subset _ _ hmem
        exact absurd (hx p this) (lt_irrefl _)
      · intro hlen
        have h0 : (p :: t).length - c = 0 := by simp; omega
        rw [h0, List.drop_zero]
        exact List.mem_cons_self _ _
    · have hxp : x.1 < p.1 := hx p hpt
      rw [List.filter_cons]
      have hnx : ¬ (p.1 < x.1) := by omega
      simp only [hnx, decide_False, Bool.false_eq_true, if_false]
      by_cases hc : t.length + 1 ≤ c
      · have h0 : (x :: t).length - c = 0 := by simp; omega
        rw [h0, List.drop_zero]
        have hle : (t.filter (fun q => p.1 < q.1)).length ≤ t.length :=
          List.length_filter_le _ _
        constructor
        · intro _; omega
        · intro _; exact hp
      · have hlen : (x :: t).length - c = (t.length - c) + 1 := by simp; omega
        rw [hlen, List.drop_succ_cons]
        exact ih ht hpt

/-! ## Claim theorems -/

/-- C8: for every serialized response long enough to hold the header (at least 8 words),
`ResponseNeedsAck` returns `true` exactly when the least-significant bit of the 32-bit
sequence-number word at the fixed offset (element 6) is `1`, independent of the payload. -/
theorem ResponseNeedsAck_iff_seqNo_odd (r : SerializedMessage) (h : 8 ≤ r.length) :
    ResponseNeedsAck r = true ↔ (r.getD 6 0) % 2 = 1 := by
  unfold ResponseNeedsAck
  rw [if_neg (by omega)]
  simp only [bne_iff_ne, ne_eq, Nat.and_one_is_mod]
  omega

theorem ResponseNeedsAck_iff_seqNo_odd_w :
    8 ≤ ([2, 2, 2, 2, 2, 2, 3, 2] : SerializedMessage).length
      ∧ (ResponseNeedsAck [2, 2, 2, 2, 2, 2, 3, 2] = true
          ↔ (([2, 2, 2, 2, 2, 2, 3, 2] : SerializedMessage).getD 6 0) % 2 = 1) :=
  ⟨by decide, ResponseNeedsAck_iff_seqNo_odd _ (by decide)⟩

/-- C9: a serialized response with fewer than 8 words makes `ResponseNeedsAck` return
`false` from the guard alone, so the fixed-offset read at element 6 is never performed
out of bounds; the embedded function is total over all buffers by construction. -/
theorem ResponseNeedsAck_short_false (r : SerializedMessage) (h : r.length < 8) :
    ResponseNeedsAck r = false := by
  unfold ResponseNeedsAck
  rw [if_pos h]

theorem ResponseNeedsAck_short_false_w :
    ([9] : SerializedMessage).length < 8 ∧ ResponseNeedsAck [9] = false :=
  ⟨by decide, ResponseNeedsAck_short_false _ (by decide)⟩

/-- C6: `setSession` with a fresh id stores it and resets `messagesSent` to `0`;
`setSession` with the current id leaves the record completely unchanged. -/
theorem setSession_spec (s : SessionData) (id : Nat) :
    (id ≠ s.session →
        (SessionData.setSession id s).session = id
          ∧ (SessionData.setSession id s).messagesSent = 0)
      ∧ SessionData.setSession s.session s = s := by
  constructor
  · intro h
    have h' : s.session ≠ id := fun hh => h hh.symm
    simp [SessionData.setSession, h']
  · simp [SessionData.setSession]

theorem setSession_spec_w :
    ((6 : Nat) ≠ sampleData.session
        ∧ (SessionData.setSession 6 sampleData).session = 6
        ∧ (SessionData.setSession 6 sampleData).messagesSent = 0)
      ∧ SessionData.setSession sampleData.session sampleData = sampleData :=
  ⟨⟨by decide, (setSession_spec sampleData 6).1 (by decide)⟩, (setSession_spec sampleData 6).2⟩

/-- C10: `setSalt` changes only the salt field; session id, `messagesSent`,
`layerInited`, `keyChecked`, the key reference and every queue are untouched. -/
theorem setSalt_only_salt (s : SessionData) (v : Nat) :
    (SessionData.setSalt v s).salt = v
      ∧ (SessionData.setSalt v s).session = s.session
      ∧ (SessionData.setSalt v s).messagesSent = s.messagesSent
      ∧ (SessionData.setSalt v s).layerInited = s.layerInited
      ∧ (SessionData.setSalt v s).keyChecked = s.keyChecked
      ∧ (SessionData.setSalt v s).authKey = s.authKey
      ∧ (SessionData.setSalt v s).toSend = s.toSend
      ∧ (SessionData.setSalt v s).haveSent = s.haveSent
      ∧ (SessionData.setSalt v s).toResend = s.toResend
      ∧ (SessionData.setSalt v s).receivedIds = s.receivedIds
      ∧ (SessionData.setSalt v s).wereAcked = s.wereAcked
      ∧ (SessionData.setSalt v s).stateRequest = s.stateRequest
      ∧ (SessionData.setSalt v s).receivedResponses = s.receivedResponses
      ∧ (SessionData.setSalt v s).receivedUpdates = s.receivedUpdates :=
  ⟨rfl, rfl, rfl, rfl, rfl, rfl, rfl, rfl, rfl, rfl, rfl, rfl, rfl, rfl⟩

/-- After `k` sequential ack-needing calls starting from a zeroed counter, the counter
holds `k` modulo `2 ^ 32`. -/
theorem iterateSeqCalls_messagesSent (s : SessionData) (h : s.messagesSent = 0) :
    ∀ k, (SessionData.iterateSeqCalls s k).messagesSent = k % 2 ^ 32 := by
  intro k
  induction k with
  | zero => simp [SessionData.iterateSeqCalls, h]
  | succ k ih =>
    show ((SessionData.iterateSeqCalls s k).messagesSent + 1) % 2 ^ 32 = (k + 1) % 2 ^ 32
    rw [ih]
    omega

/-- C2: `nextRequestSeqNumber` returns `counter * 2 + (needAck ? 1 : 0)` in `uint32`
arithmetic and advances the counter exactly when `needAck`; from a fresh (zero) counter the
`k`-th ack-needing call returns `2k + 1` (i.e. the calls yield 1, 3, 5, …, as long as the
`uint32` doubling has not wrapped, `k < 2 ^ 31`); a `needAck = false` call returns
`2 * counter` mod `2 ^ 32` and leaves the whole record, counter included, unchanged. -/
theorem nextRequestSeqNumber_spec :
    (∀ (s : SessionData) (needAck : Bool), s.messagesSent < 2 ^ 32 →
        (SessionData.nextRequestSeqNumber needAck s).1
            = (s.messagesSent * 2 + (if needAck then 1 else 0)) % 2 ^ 32
          ∧ (SessionData.nextRequestSeqNumber needAck s).2.messagesSent
              = (if needAck then (s.messagesSent + 1) % 2 ^ 32 else s.messagesSent))
      ∧ (∀ (s : SessionData) (k : Nat), s.messagesSent = 0 → k < 2 ^ 31 →
          (SessionData.nextRequestSeqNumber true (SessionData.iterateSeqCalls s k)).1
            = 2 * k + 1)
      ∧ (∀ s : SessionData, s.messagesSent < 2 ^ 32 →
          (SessionData.nextRequestSeqNumber false s).1 = (2 * s.messagesSent) % 2 ^ 32
            ∧ (SessionData.nextRequestSeqNumber false s).2 = s) := by
  refine ⟨?_, ?_, ?_⟩
  · intro s needAck h
    cases needAck with
    | true => exact ⟨rfl, rfl⟩
    | false =>
      refine ⟨rfl, ?_⟩
      show (s.messagesSent + 0) % 2 ^ 32 = s.messagesSent
      omega
  · intro s k h hk
    show ((SessionData.iterateSeqCalls s k).messagesSent * 2 + 1) % 2 ^ 32 = 2 * k + 1
    rw [iterateSeqCalls_messagesSent s h k]
    omega
  · intro s h
    constructor
    · show (s.messagesSent * 2 + 0) % 2 ^ 32 = (2 * s.messagesSent) % 2 ^ 32
      omega
    · show { s with messagesSent := (s.messagesSent + 0) % 2 ^ 32 } = s
      have h0 : (s.messagesSent + 0) % 2 ^ 32 = s.messagesSent := by omega
      rw [h0]

theorem nextRequestSeqNumber_spec_w :
    ((SessionData.nextRequestSeqNumber true sampleData).1
          = (sampleData.messagesSent * 2 + (if true then 1 else 0)) % 2 ^ 32
        ∧ (SessionData.nextRequestSeqNumber true sampleData).2.messagesSent
            = (if true then (sampleData.messagesSent + 1) % 2 ^ 32 else sampleData.messagesSent))
      ∧ ((SessionData.nextRequestSeqNumber true
            (SessionData.iterateSeqCalls { sampleData with messagesSent := 0 } 3)).1
          = 2 * 3 + 1)
      ∧ ((SessionData.nextRequestSeqNumber false sampleData).1
            = (2 * sampleData.messagesSent) % 2 ^ 32
          ∧ (SessionData.nextRequestSeqNumber false sampleData).2 = sampleData) :=
  ⟨nextRequestSeqNumber_spec.1 sampleData true (by decide),
    nextRequestSeqNumber_spec.2.1 { sampleData with messagesSent := 0 } 3 rfl (by norm_num),
    nextRequestSeqNumber_spec.2.2 sampleData (by decide)⟩

/-- C7: once the session is killed, `sendPrepared` (enqueue), `resend` and the periodic
sweep `checkRequestsByTimer` return the state exactly as it was — every queue and counter
unchanged — and fire no callback; `kill` on a killed session changes nothing and the killed
flag never reverts. Modelled from the spec: the operation bodies live in `session.cpp`,
outside this excerpt. -/
theorem killed_ops_noop (s : Session) (r q m : Nat) (h : s.killed = true) :
    Session.sendPrepared r q s = (s, [])
      ∧ Session.resend m s = (s, [])
      ∧ Session.checkRequestsByTimer s = (s, [])
      ∧ Session.kill s = s
      ∧ (Session.kill s).killed = true
      ∧ (Session.sendPrepared r q s).1.killed = true
      ∧ (Session.resend m s).1.killed = true
      ∧ (Session.checkRequestsByTimer s).1.killed = true := by
  obtain ⟨killed, data⟩ := s
  subst h
  simp [Session.sendPrepared, Session.resend, Session.checkRequestsByTimer, Session.kill]

theorem killed_ops_noop_w :
    Session.sendPrepared 1 2 ⟨true, sampleData⟩ = (⟨true, sampleData⟩, [])
      ∧ Session.resend 3 ⟨true, sampleData⟩ = (⟨true, sampleData⟩, [])
      ∧ Session.checkRequestsByTimer ⟨true, sampleData⟩ = (⟨true, sampleData⟩, [])
      ∧ Session.kill ⟨true, sampleData⟩ = ⟨true, sampleData⟩
      ∧ (Session.kill ⟨true, sampleData⟩).killed = true
      ∧ (Session.sendPrepared 1 2 ⟨true, sampleData⟩).1.killed = true
      ∧ (Session.resend 3 ⟨true, sampleData⟩).1.killed = true
      ∧ (Session.checkRequestsByTimer ⟨true, sampleData⟩).1.killed = true :=
  killed_ops_noop ⟨true, sampleData⟩ 1 2 3 rfl

/-- C3 counterexample: with stored key `1`, session id `5` and `messagesSent = 9`, calling
`setKey` with the different key `2` while `rand_value` happens to return the current session
id `5` neither changes the session id nor resets `messagesSent` — the code only resets when
the freshly drawn id differs from the stored one, so "always produces a new sessionId and
resets messagesSent" fails at this input. -/
theorem setKey_rand_collision_cex :
    (2 : Nat) ≠ sampleData.authKey
      ∧ (SessionData.setKey 2 5 sampleData).session = sampleData.session
      ∧ (SessionData.setKey 2 5 sampleData).messagesSent = sampleData.messagesSent
      ∧ (SessionData.setKey 2 5 sampleData).messagesSent ≠ 0 := by
  decide

/-- C3 (amended): for a key different from the stored one, `setKey` stores the key and
clears `layerInited`; it replaces the session id with the freshly drawn random id and resets
`messagesSent` to `0` exactly when that random id differs from the current session id, and
leaves both untouched when the draw collides with the current id. `setKey` with the stored
key is a complete no-op. -/
theorem setKey_amended_spec (s : SessionData) (k r : Nat) :
    (k ≠ s.authKey →
        (SessionData.setKey k r s).authKey = k
          ∧ (SessionData.setKey k r s).layerInited = false
          ∧ (r ≠ s.session →
              (SessionData.setKey k r s).session = r
                ∧ (SessionData.setKey k r s).messagesSent = 0)
          ∧ (r = s.session →
              (SessionData.setKey k r s).session = s.session
                ∧ (SessionData.setKey k r s).messagesSent = s.messagesSent))
      ∧ SessionData.setKey s.authKey r s = s := by
  constructor
  · intro hk
    have hk' : s.authKey ≠ k := fun hh => hk hh.symm
    by_cases hr : s.session = r
    · simp [SessionData.setKey, hk', hr]
    · have hr' : r ≠ s.session := fun hh => hr hh.symm
      simp [SessionData.setKey, hk', hr, hr']
  · simp [SessionData.setKey]

theorem setKey_amended_spec_w :
    ((2 : Nat) ≠ sampleData.authKey
        ∧ (11 : Nat) ≠ sampleData.session
        ∧ (SessionData.setKey 2 11 sampleData).authKey = 2
        ∧ (SessionData.setKey 2 11 sampleData).layerInited = false
        ∧ (SessionData.setKey 2 11 sampleData).session = 11
        ∧ (SessionData.setKey 2 11 sampleData).messagesSent = 0)
      ∧ SessionData.setKey sampleData.authKey 11 sampleData = sampleData := by
  have h := setKey_amended_spec sampleData 2 11
  have h1 := h.1 (by decide)
  exact ⟨⟨by decide, by decide, h1.1, h1.2.1, (h1.2.2.1 (by decide)).1,
    (h1.2.2.1 (by decide)).2⟩, h.2⟩

/-- C1: `registerMsgId` succeeds exactly when the id is not already present and either the
window is below the fixed capacity or the id exceeds the window's minimum (the head of the
sorted map, a lower bound of every entry); on success the id is stored with its ack flag and
no other entry's state changes, and on failure the window is returned untouched. -/
theorem registerMsgId_spec (w : ReceivedMsgIds) (msgId : mtpMsgId) (needAck : Bool)
    (hw : w.Wf) :
    ((ReceivedMsgIds.registerMsgId msgId needAck w).1 = true ↔
        w.idsNeedAck.lookup msgId = none
          ∧ (w.idsNeedAck.length < MTPIdsBufferSize ∨ w.min < msgId))
      ∧ ((ReceivedMsgIds.registerMsgId msgId needAck w).1 = true →
          ReceivedMsgIds.lookup msgId (ReceivedMsgIds.registerMsgId msgId needAck w).2
              = (if needAck then ReceivedMsgIds.State.NeedsAck
                  else ReceivedMsgIds.State.NoAckNeeded)
            ∧ ∀ m, m ≠ msgId →
                ReceivedMsgIds.lookup m (ReceivedMsgIds.registerMsgId msgId needAck w).2
                  = ReceivedMsgIds.lookup m w)
      ∧ ((ReceivedMsgIds.registerMsgId msgId needAck w).1 = false →
          (ReceivedMsgIds.registerMsgId msgId needAck w).2 = w)
      ∧ (∀ p ∈ w.idsNeedAck, w.min ≤ p.1) := by
  have hmin : ∀ p ∈ w.idsNeedAck, w.min ≤ p.1 := by
    obtain ⟨l⟩ := w
    cases l with
    | nil => intro p hp; simp at hp
    | cons x t =>
      intro p hp
      rcases List.mem_cons.1 hp with rfl | hpt
      · exact Nat.le_refl _
      · exact Nat.le_of_lt ((List.pairwise_cons.1 hw).1 p hpt)
  cases hcase : w.idsNeedAck.lookup msgId with
  | some b =>
    refine ⟨?_, ?_, ?_, hmin⟩
    · simp [ReceivedMsgIds.registerMsgId, hcase]
    · intro htrue
      simp [ReceivedMsgIds.registerMsgId, hcase] at htrue
    · intro _
      simp [ReceivedMsgIds.registerMsgId, hcase]
  | none =>
    by_cases hcond : w.idsNeedAck.length < MTPIdsBufferSize ∨ w.min < msgId
    · have hreg : ReceivedMsgIds.registerMsgId msgId needAck w
          = (true, ⟨qmapInsert msgId needAck w.idsNeedAck⟩) := by
        simp [ReceivedMsgIds.registerMsgId, hcase, hcond]
      refine ⟨?_, ?_, ?_, hmin⟩
      · rw [hreg]
        simp [hcase, hcond]
      · intro _
        rw [hreg]
        constructor
        · unfold ReceivedMsgIds.lookup
          rw [show (⟨qmapInsert msgId needAck w.idsNeedAck⟩ : ReceivedMsgIds).idsNeedAck
                = qmapInsert msgId needAck w.idsNeedAck from rfl,
            lookup_qmapInsert_self]
          cases needAck <;> rfl
        · intro m hm
          unfold ReceivedMsgIds.lookup
          rw [show (⟨qmapInsert msgId needAck w.idsNeedAck⟩ : ReceivedMsgIds).idsNeedAck
                = qmapInsert msgId needAck w.idsNeedAck from rfl,
            lookup_qmapInsert_ne _ _ _ _ hm]
      · intro hfalse
        rw [hreg] at hfalse
        simp at hfalse
    · have hreg : ReceivedMsgIds.registerMsgId msgId needAck w = (false, w) := by
        simp [ReceivedMsgIds.registerMsgId, hcase, hcond]
      refine ⟨?_, ?_, ?_, hmin⟩
      · rw [hreg]
        simp [hcond]
      · intro htrue
        rw [hreg] at htrue
        simp at htrue
      · intro _
        rw [hreg]

theorem registerMsgId_spec_w :
    ReceivedMsgIds.Wf ⟨[(1, true), (3, false)]⟩
      ∧ ((ReceivedMsgIds.registerMsgId 2 true ⟨[(1, true), (3, false)]⟩).1 = true ↔
          (⟨[(1, true), (3, false)]⟩ : ReceivedMsgIds).idsNeedAck.lookup 2 = none
            ∧ ((⟨[(1, true), (3, false)]⟩ : ReceivedMsgIds).idsNeedAck.length
                  < MTPIdsBufferSize
                ∨ ReceivedMsgIds.min ⟨[(1, true), (3, false)]⟩ < 2))
      ∧ ((ReceivedMsgIds.registerMsgId 2 true ⟨[(1, true), (3, false)]⟩).1 = true →
          ReceivedMsgIds.lookup 2 (ReceivedMsgIds.registerMsgId 2 true ⟨[(1, true), (3, false)]⟩).2
            = (if true then ReceivedMsgIds.State.NeedsAck
                else ReceivedMsgIds.State.NoAckNeeded)) := by
  have h := registerMsgId_spec ⟨[(1, true), (3, false)]⟩ 2 true (by decide)
  exact ⟨by decide, h.1, fun ht => (h.2.1 ht).1⟩

set_option maxRecDepth 4000 in
/-- C4: after `shrink`, the window holds at most `MTPIdsBufferSize` entries; a window already
at or below capacity is returned unchanged; every retained entry was previously held; and a
previously held entry is retained exactly when fewer than `MTPIdsBufferSize` entries carry a
strictly larger id — i.e. the survivors are exactly the capacity largest ids (the smallest
are evicted first). -/
theorem shrink_spec (w : ReceivedMsgIds) (hw : w.Wf) :
    (ReceivedMsgIds.shrink w).idsNeedAck.length ≤ MTPIdsBufferSize
      ∧ (w.idsNeedAck.length ≤ MTPIdsBufferSize → ReceivedMsgIds.shrink w = w)
      ∧ (∀ p ∈ (ReceivedMsgIds.shrink w).idsNeedAck, p ∈ w.idsNeedAck)
      ∧ (∀ p ∈ w.idsNeedAck,
          (p ∈ (ReceivedMsgIds.shrink w).idsNeedAck ↔
            (w.idsNeedAck.filter (fun q => p.1 < q.1)).length < MTPIdsBufferSize)) := by
  refine ⟨?_, ?_, ?_, ?_⟩
  · show (w.idsNeedAck.drop (w.idsNeedAck.length - MTPIdsBufferSize)).length ≤ _
    rw [List.length_drop]
    omega
  · intro h
    show (⟨w.idsNeedAck.drop (w.idsNeedAck.length - MTPIdsBufferSize)⟩ : ReceivedMsgIds) = w
    rw [Nat.sub_eq_zero_of_le h, List.drop_zero]
  · intro p hp
    exact List.drop_subset _ _ hp
  · intro p hp
    exact mem_drop_sorted_iff MTPIdsBufferSize p w.idsNeedAck hw hp

theorem shrink_spec_w :
    ReceivedMsgIds.Wf ⟨[(1, true), (2, false)]⟩
      ∧ (ReceivedMsgIds.shrink ⟨[(1, true), (2, false)]⟩).idsNeedAck.length ≤ MTPIdsBufferSize
      ∧ ((⟨[(1, true), (2, false)]⟩ : ReceivedMsgIds).idsNeedAck.length ≤ MTPIdsBufferSize →
          ReceivedMsgIds.shrink ⟨[(1, true), (2, false)]⟩ = ⟨[(1, true), (2, false)]⟩) := by
  have h := shrink_spec ⟨[(1, true), (2, false)]⟩ (by decide)
  exact ⟨by decide, h.1, h.2.1⟩

/-- C5: registering a fresh id while the window is under capacity succeeds; `lookup`
afterwards returns exactly the ack state stored at registration; a second `registerMsgId` of
the same id, with any flag, returns `false`, leaves the window unchanged, and so `lookup`
still returns the originally stored state. -/
theorem register_then_lookup_spec (w : ReceivedMsgIds) (msgId : mtpMsgId) (a a2 : Bool)
    (habs : ReceivedMsgIds.lookup msgId w = ReceivedMsgIds.State.NotFound)
    (hcap : w.idsNeedAck.length < MTPIdsBufferSize) :
    (ReceivedMsgIds.registerMsgId msgId a w).1 = true
      ∧ ReceivedMsgIds.lookup msgId (ReceivedMsgIds.registerMsgId msgId a w).2
          = (if a then ReceivedMsgIds.State.NeedsAck else ReceivedMsgIds.State.NoAckNeeded)
      ∧ (ReceivedMsgIds.registerMsgId msgId a2
            (ReceivedMsgIds.registerMsgId msgId a w).2).1 = false
      ∧ (ReceivedMsgIds.registerMsgId msgId a2
            (ReceivedMsgIds.registerMsgId msgId a w).2).2
          = (ReceivedMsgIds.registerMsgId msgId a w).2
      ∧ ReceivedMsgIds.lookup msgId
            (ReceivedMsgIds.registerMsgId msgId a2
              (ReceivedMsgIds.registerMsgId msgId a w).2).2
          = (if a then ReceivedMsgIds.State.NeedsAck else ReceivedMsgIds.State.NoAckNeeded) := by
  have hnone : w.idsNeedAck.lookup msgId = none := by
    unfold ReceivedMsgIds.lookup at habs
    cases hcase : w.idsNeedAck.lookup msgId with
    | none => rfl
    | some b =>
      rw [hcase] at habs
      cases b <;> simp at habs
  have hreg : ReceivedMsgIds.registerMsgId msgId a w
      = (true, ⟨qmapInsert msgId a w.idsNeedAck⟩) := by
    simp [ReceivedMsgIds.registerMsgId, hnone, hcap]
  have hlook : (qmapInsert msgId a w.idsNeedAck).lookup msgId = some a :=
    lookup_qmapInsert_self _ _ _
  have hreg2 : ReceivedMsgIds.registerMsgId msgId a2 ⟨qmapInsert msgId a w.idsNeedAck⟩
      = (false, ⟨qmapInsert msgId a w.idsNeedAck⟩) := by
    simp [ReceivedMsgIds.registerMsgId, hlook]
  have hlookState :
      ReceivedMsgIds.lookup msgId (⟨qmapInsert msgId a w.idsNeedAck⟩ : ReceivedMsgIds)
        = (if a then ReceivedMsgIds.State.NeedsAck else ReceivedMsgIds.State.NoAckNeeded) := by
    unfold ReceivedMsgIds.lookup
    rw [show (⟨qmapInsert msgId a w.idsNeedAck⟩ : ReceivedMsgIds).idsNeedAck
          = qmapInsert msgId a w.idsNeedAck from rfl, hlook]
    cases a <;> rfl
  refine ⟨?_, ?_, ?_, ?_, ?_⟩
  · rw [hreg]
  · rw [hreg]
    exact hlookState
  · rw [hreg, hreg2]
  · rw [hreg, hreg2]
  · rw [hreg, hreg2]
    exact hlookState

theorem register_then_lookup_spec_w :
    ReceivedMsgIds.lookup 100 ⟨[]⟩ = ReceivedMsgIds.State.NotFound
      ∧ (⟨[]⟩ : ReceivedMsgIds).idsNeedAck.length < MTPIdsBufferSize
      ∧ (ReceivedMsgIds.registerMsgId 100 true ⟨[]⟩).1 = true
      ∧ ReceivedMsgIds.lookup 100 (ReceivedMsgIds.registerMsgId 100 true ⟨[]⟩).2
          = ReceivedMsgIds.State.NeedsAck
      ∧ (ReceivedMsgIds.registerMsgId 100 false
            (ReceivedMsgIds.registerMsgId 100 true ⟨[]⟩).2).1 = false := by
  have h := register_then_lookup_spec ⟨[]⟩ 100 true false (by decide) (by decide)
  exact ⟨by decide, by decide, h.1, h.2.1, h.2.2.1⟩

end MTPSession
